import Mathlib

/-!
Shallow embedding of the Google Drive document permission sync module
(`backend/ee/onyx/external_permissions/google_drive/doc_sync.py`).

Permission objects returned by the Drive API are JSON dictionaries with
string-valued fields; they are modelled as association lists from field
name to string value, where the empty list models a falsy entry (an
empty dict or `None`).  The process-wide `_PERMISSION_ID_PERMISSION_MAP`
cache is modelled as an association list threaded explicitly through the
functions; insertion prepends, so a later insert for the same key
overwrites the earlier one, as a Python dict assignment does.  A Python
`KeyError` raised by a `permission["type"]`-style subscript is modelled
with `Except String`.  The network call (`execute_paginated_retrieval`
over `drive_service.permissions().list`) is an oracle
`String → List Perm` from the document id to the returned permission
objects; with `continue_on_404_or_403=True` a missing or forbidden
document yields `[]`.  The acting identity (`owner_email` versus the
primary admin email) selects credentials only and does not change the
shape of the result, so the oracle does not depend on it.
-/

namespace GDriveSync

/-- Decidable equality for `Except`, used to evaluate the embedded
functions on concrete inputs. -/
instance {ε α : Type} [DecidableEq ε] [DecidableEq α] :
    DecidableEq (Except ε α) := fun x y =>
  match x, y with
  | .ok a, .ok b =>
    if h : a = b then isTrue (by rw [h])
    else isFalse (by intro hc; cases hc; exact h rfl)
  | .error a, .error b =>
    if h : a = b then isTrue (by rw [h])
    else isFalse (by intro hc; cases hc; exact h rfl)
  | .ok _, .error _ => isFalse (by intro hc; cases hc)
  | .error _, .ok _ => isFalse (by intro hc; cases hc)

/-- One permission object: an association list of string-valued JSON
fields.  The empty list models a falsy entry (`None` or `{}`). -/
abbrev Perm := List (String × String)

/-- Field lookup on an association list, modelling both `d[k]` (when the
result is matched against `none` = `KeyError`) and `d.get(k)`. -/
def listGet {α : Type} : List (String × α) → String → Option α
  | [], _ => none
  | (k, v) :: rest, key => if k = key then some v else listGet rest key

/-- Python truthiness of an optional string: `None` and `""` are falsy. -/
def strTruthy : Option String → Bool
  | none => false
  | some s => if s = "" then false else true

/-- The `perm_sync_data` payload of a slim document.  Every consumer in
the source reads its keys with `.get` (with a default or a truthiness
test or `is not None`), so an absent key and a falsy value coincide and
each key becomes one field with a falsy default. -/
structure PermSyncData where
  permissions : List Perm := []
  permission_ids : List String := []
  doc_id : Option String := none
  owner_email : Option String := none
  drive_id : Option String := none
deriving DecidableEq

/-- `SlimDocument` from `onyx.connectors.models`: the two fields the
module reads. -/
structure SlimDocument where
  id : String
  perm_sync_data : Option PermSyncData := none
deriving DecidableEq

/-- `ExternalAccess` from `onyx.access.models`. -/
structure ExternalAccess where
  external_user_emails : Finset String
  external_user_group_ids : Finset String
  is_public : Bool
deriving DecidableEq

/-- The process-wide `_PERMISSION_ID_PERMISSION_MAP`. -/
abbrev Cache := List (String × Perm)

/-- `_PERMISSION_ID_PERMISSION_MAP[k] = p` (dict assignment overwrites). -/
def cacheInsert (c : Cache) (k : String) (p : Perm) : Cache := (k, p) :: c

/-- The `logger.warning` calls of `_get_permissions_from_slim_doc`,
distinguished by call site. -/
inductive Warning where
  | noPermissions
  | domainMismatch
  | skippedEntries
deriving DecidableEq

/-- Mutable state of the classification loop of
`_get_permissions_from_slim_doc`: the accumulator sets, the public flag,
the `skipped_permissions` counter, and the warnings logged so far inside
the loop. -/
structure LoopState where
  user_emails : Finset String := ∅
  group_emails : Finset String := ∅
  public : Bool := false
  skipped : Nat := 0
  mismatchWarnings : List Warning := []
deriving DecidableEq

/-- One iteration of the `for permission in permissions_list` loop.
The Python `elif permission_type == "domain" and company_domain` guard
falls through to the `elif permission_type == "anyone"` test when the
company domain is falsy; that test is then false (the type is
`"domain"`), so the entry is dropped silently — hence the `.ok st` in
the inner else.  A type other than the four known kinds is also dropped
silently (there is no final else in the source). -/
def classifyOne (companyDomain : Option String) (st : LoopState) (p : Perm) :
    Except String LoopState :=
  if p.isEmpty then .ok { st with skipped := st.skipped + 1 }
  else
    match listGet p "type" with
    | none => .error "KeyError: type"
    | some t =>
      if t = "user" then
        match listGet p "emailAddress" with
        | none => .error "KeyError: emailAddress"
        | some e => .ok { st with user_emails := insert e st.user_emails }
      else if t = "group" then
        match listGet p "emailAddress" with
        | none => .error "KeyError: emailAddress"
        | some e => .ok { st with group_emails := insert e st.group_emails }
      else if t = "domain" then
        if strTruthy companyDomain then
          if listGet p "domain" = companyDomain then .ok { st with public := true }
          else .ok { st with mismatchWarnings := st.mismatchWarnings ++ [.domainMismatch] }
        else .ok st
      else if t = "anyone" then .ok { st with public := true }
      else .ok st

/-- The whole classification loop. -/
def classifyLoop (companyDomain : Option String) :
    LoopState → List Perm → Except String LoopState
  | st, [] => .ok st
  | st, p :: rest =>
    match classifyOne companyDomain st p with
    | .error e => .error e
    | .ok st' => classifyLoop companyDomain st' rest

/-- Result of `_get_permissions_from_slim_doc`, together with the
warnings it logged, the cache state after the call and the number of
network fetches it made. -/
structure ResolveResult where
  access : ExternalAccess
  warnings : List Warning
  cache : Cache
  fetchCount : Nat
deriving DecidableEq

/-- Tail of `_get_permissions_from_slim_doc` after `permissions_list`
is known to be non-empty: the classification loop, the aggregate
`skipped_permissions` warning, and the `drive_id` injection into the
group ids (`is not None` test, so `""` is injected too). -/
def classifyPhase (companyDomain : Option String) (info : PermSyncData)
    (permissions_list : List Perm) (cache : Cache) (fetchCount : Nat) :
    Except String ResolveResult :=
  match classifyLoop companyDomain {} permissions_list with
  | .error e => .error e
  | .ok st =>
    let warns := st.mismatchWarnings ++
      (if st.skipped > 0 then [Warning.skippedEntries] else [])
    let group_ids := st.group_emails ∪
      (match info.drive_id with | some d => {d} | none => ∅)
    .ok { access := { external_user_emails := st.user_emails,
                      external_user_group_ids := group_ids,
                      is_public := st.public },
          warnings := warns, cache := cache, fetchCount := fetchCount }

/-- The `for permission in fetched_permissions` loop of
`_fetch_permissions_for_permission_ids`: each fetched object is written
to the cache under `permission["id"]` (a `KeyError` if the field is
missing). -/
def storeFetched : Cache → List Perm → Except String Cache
  | c, [] => .ok c
  | c, p :: rest =>
    match listGet p "id" with
    | none => .error "KeyError: id"
    | some i => storeFetched (cacheInsert c i p) rest

/-- `_fetch_permissions_for_permission_ids`.  Returns the permission
list, the new cache and the number of network fetches (0 or 1).  The
source's `if not permission_info or not doc_id: return []` guard is
modelled by the `doc_id` truthiness test alone: when the payload dict is
empty, `doc_id` is necessarily absent, so the first disjunct is
subsumed. -/
def fetchPermissionsForPermissionIds (oracle : String → List Perm)
    (cache : Cache) (permission_ids : List String) (info : PermSyncData) :
    Except String (List Perm × Cache × Nat) :=
  match info.doc_id with
  | none => .ok ([], cache, 0)
  | some d =>
    if d = "" then .ok ([], cache, 0)
    else
      let cached := permission_ids.filterMap (listGet cache)
      if cached.length = permission_ids.length then .ok (cached, cache, 0)
      else
        match storeFetched cache (oracle d) with
        | .error e => .error e
        | .ok c' => .ok (oracle d, c', 1)

/-- `slim_doc.perm_sync_data or {}`. -/
def permInfoOf (slim_doc : SlimDocument) : PermSyncData :=
  slim_doc.perm_sync_data.getD {}

/-- Steps 1–2 of `_get_permissions_from_slim_doc`: take the embedded
`permissions` list if non-empty, otherwise fetch by `permission_ids`
when those are present (walrus truthiness test), otherwise produce the
empty list. -/
def resolvePermList (oracle : String → List Perm) (cache : Cache)
    (info : PermSyncData) : Except String (List Perm × Cache × Nat) :=
  if info.permissions.isEmpty then
    if info.permission_ids.isEmpty then .ok ([], cache, 0)
    else fetchPermissionsForPermissionIds oracle cache info.permission_ids info
  else .ok (info.permissions, cache, 0)

/-- `_get_permissions_from_slim_doc`.  When the resolved list is empty
the conservative private fallback is returned immediately — before the
`drive_id` injection, which lives in `classifyPhase`. -/
def getPermissionsFromSlimDoc (companyDomain : Option String)
    (oracle : String → List Perm) (cache : Cache) (slim_doc : SlimDocument) :
    Except String ResolveResult :=
  let info := permInfoOf slim_doc
  match resolvePermList oracle cache info with
  | .error e => .error e
  | .ok (permissions_list, c, fc) =>
    if permissions_list.isEmpty then
      .ok { access := { external_user_emails := ∅,
                        external_user_group_ids := ∅,
                        is_public := false },
            warnings := [Warning.noPermissions], cache := c, fetchCount := fc }
    else classifyPhase companyDomain info permissions_list c fc

/-- Did the resolver return normally (no `KeyError`)? -/
def rOk : Except String ResolveResult → Bool
  | .ok _ => true
  | .error _ => false

/-- Access record of a normal resolver return (junk on error). -/
def rAccess : Except String ResolveResult → ExternalAccess
  | .ok r => r.access
  | .error _ => { external_user_emails := ∅, external_user_group_ids := ∅,
                  is_public := false }

/-- Warnings of a normal resolver return (junk on error). -/
def rWarnings : Except String ResolveResult → List Warning
  | .ok r => r.warnings
  | .error _ => []

/-- Fetch count of a normal resolver return (junk on error). -/
def rFetchCount : Except String ResolveResult → Nat
  | .ok r => r.fetchCount
  | .error _ => 0

/-- Did the fetch helper return normally? -/
def fOk : Except String (List Perm × Cache × Nat) → Bool
  | .ok _ => true
  | .error _ => false

/-- Permission list of a normal fetch-helper return (junk on error). -/
def fPerms : Except String (List Perm × Cache × Nat) → List Perm
  | .ok (l, _, _) => l
  | .error _ => []

/-- Cache of a normal fetch-helper return (junk on error). -/
def fCache : Except String (List Perm × Cache × Nat) → Cache
  | .ok (_, c, _) => c
  | .error _ => []

/-- Fetch count of a normal fetch-helper return (junk on error). -/
def fCount : Except String (List Perm × Cache × Nat) → Nat
  | .ok (_, _, n) => n
  | .error _ => 0

/-- Observable events of one `gdrive_doc_sync` run, in order:
`callback.should_stop()` polls (with their answer), `callback.progress`
calls, `_get_permissions_from_slim_doc` calls and `yield`s. -/
inductive Event where
  | poll (stop : Bool)
  | progress
  | resolve (docId : String)
  | emit (docId : String)
deriving DecidableEq

/-- How a run ends: stream exhausted, `RuntimeError` on a stop signal,
or a `KeyError` escaping the resolver. -/
inductive Outcome where
  | done
  | aborted
  | errored (msg : String)
deriving DecidableEq

/-- State threaded through a run: the permission cache, the number of
`should_stop` polls made so far, the event trace, and the
`DocExternalAccess` records yielded so far (doc id paired with its
access record), in order. -/
structure SyncState where
  cache : Cache := []
  polls : Nat := 0
  trace : List Event := []
  emitted : List (String × ExternalAccess) := []
deriving DecidableEq

/-- Body of the inner `for slim_doc in slim_doc_batch` loop of
`gdrive_doc_sync` for one document.  The callback is modelled as a
function from the poll index to the `should_stop` answer; `none` models
`callback = None`, in which case neither `should_stop` nor `progress`
is ever called.  Returns the new state and `some` terminal outcome when
the loop is cut short (stop signal or escaping `KeyError`). -/
def processDoc (companyDomain : Option String) (oracle : String → List Perm)
    (callback : Option (Nat → Bool)) (st : SyncState) (doc : SlimDocument) :
    SyncState × Option Outcome :=
  match callback with
  | some cb =>
    if cb st.polls then
      ({ st with polls := st.polls + 1, trace := st.trace ++ [.poll true] },
       some .aborted)
    else
      let st1 : SyncState :=
        { st with polls := st.polls + 1,
                  trace := st.trace ++ [Event.poll false, Event.progress] }
      match getPermissionsFromSlimDoc companyDomain oracle st1.cache doc with
      | .error e => ({ st1 with trace := st1.trace ++ [.resolve doc.id] },
                     some (.errored e))
      | .ok r => ({ st1 with cache := r.cache,
                             trace := st1.trace ++ [.resolve doc.id, .emit doc.id],
                             emitted := st1.emitted ++ [(doc.id, r.access)] },
                  none)
  | none =>
    match getPermissionsFromSlimDoc companyDomain oracle st.cache doc with
    | .error e => ({ st with trace := st.trace ++ [.resolve doc.id] },
                   some (.errored e))
    | .ok r => ({ st with cache := r.cache,
                          trace := st.trace ++ [.resolve doc.id, .emit doc.id],
                          emitted := st.emitted ++ [(doc.id, r.access)] },
                none)

/-- The inner `for slim_doc in slim_doc_batch` loop. -/
def processDocs (companyDomain : Option String) (oracle : String → List Perm)
    (callback : Option (Nat → Bool)) :
    SyncState → List SlimDocument → SyncState × Option Outcome
  | st, [] => (st, none)
  | st, doc :: rest =>
    match processDoc companyDomain oracle callback st doc with
    | (st', none) => processDocs companyDomain oracle callback st' rest
    | (st', some o) => (st', some o)

/-- The outer `for slim_doc_batch in slim_doc_generator` loop; reaching
the end of the stream is the `done` outcome. -/
def processBatches (companyDomain : Option String) (oracle : String → List Perm)
    (callback : Option (Nat → Bool)) :
    SyncState → List (List SlimDocument) → SyncState × Outcome
  | st, [] => (st, .done)
  | st, batch :: batches =>
    match processDocs companyDomain oracle callback st batch with
    | (st', none) => processBatches companyDomain oracle callback st' batches
    | (st', some o) => (st', o)

/-- `gdrive_doc_sync` as a whole-run function over the batched document
stream, starting from an empty cache and an empty trace. -/
def gdriveDocSync (companyDomain : Option String) (oracle : String → List Perm)
    (callback : Option (Nat → Bool)) (batches : List (List SlimDocument)) :
    SyncState × Outcome :=
  processBatches companyDomain oracle callback {} batches

/-- Events that are neither a cancellation poll nor a progress report. -/
def nonSignalEvent : Event → Bool
  | Event.poll _ => false
  | Event.progress => false
  | Event.resolve _ => true
  | Event.emit _ => true

/-! ### Helper lemmas -/

theorem listGet_mem {α : Type} :
    ∀ (c : List (String × α)) (k : String) (v : α),
      listGet c k = some v → (k, v) ∈ c := by
  intro c
  induction c with
  | nil => intro k v h; simp [listGet] at h
  | cons kv rest ih =>
    intro k v h
    obtain ⟨k', v'⟩ := kv
    rw [listGet] at h
    by_cases hk : k' = k
    · simp [hk] at h
      subst hk; subst h
      exact List.mem_cons_self _ _
    · simp [hk] at h
      exact List.mem_cons_of_mem _ (ih k v h)

theorem length_filterMap_of_all_isSome {α β : Type} (f : α → Option β) :
    ∀ l : List α, (∀ a ∈ l, (f a).isSome = true) →
      (l.filterMap f).length = l.length := by
  intro l
  induction l with
  | nil => intro _; rfl
  | cons a l ih =>
    intro h
    obtain ⟨b, hb⟩ := Option.isSome_iff_exists.mp (h a (List.mem_cons_self a l))
    simp [List.filterMap_cons, hb,
      ih (fun x hx => h x (List.mem_cons_of_mem a hx))]

theorem length_filterMap_ne_of_none {α β : Type} (f : α → Option β) :
    ∀ l : List α, (∃ a ∈ l, f a = none) →
      (l.filterMap f).length ≠ l.length := by
  intro l
  induction l with
  | nil => intro h; obtain ⟨a, ha, _⟩ := h; cases ha
  | cons a l ih =>
    intro h
    obtain ⟨x, hx, hfx⟩ := h
    rcases List.mem_cons.mp hx with hxa | hxl
    · subst hxa
      rw [List.filterMap_cons, hfx]
      have := List.length_filterMap_le f l
      simp only [List.length_cons]
      omega
    · cases hfa : f a with
      | none =>
        rw [List.filterMap_cons, hfa]
        have := List.length_filterMap_le f l
        simp only [List.length_cons]
        omega
      | some b =>
        rw [List.filterMap_cons, hfa]
        have := ih ⟨x, hxl, hfx⟩
        simp only [List.length_cons]
        omega

theorem rFetchCount_classifyPhase_zero (companyDomain : Option String)
    (info : PermSyncData) (pl : List Perm) (cache : Cache) :
    rFetchCount (classifyPhase companyDomain info pl cache 0) = 0 := by
  cases hcl : classifyLoop companyDomain {} pl with
  | error e => simp [classifyPhase, hcl, rFetchCount]
  | ok st => simp [classifyPhase, hcl, rFetchCount]

/-! ### Claim C7 -/

/-- C7: when the cancellation signal reads true at the per-document
check, the orchestrator terminates with the fatal aborted outcome before
resolving that document: the only event added is the positive poll, no
record is emitted for the triggering document, and the records already
emitted (`st.emitted`) are unchanged. -/
theorem c7_cancel_aborts_before_resolve (companyDomain : Option String)
    (oracle : String → List Perm) (cb : Nat → Bool) (st : SyncState)
    (doc : SlimDocument) (rest : List SlimDocument)
    (batches : List (List SlimDocument))
    (h : cb st.polls = true) :
    processBatches companyDomain oracle (some cb) st ((doc :: rest) :: batches) =
      ({ st with polls := st.polls + 1, trace := st.trace ++ [Event.poll true] },
       Outcome.aborted) := by
  simp [processBatches, processDocs, processDoc, h]

/-- C7 witness: a concrete run whose callback stops at the first poll. -/
theorem c7_cancel_aborts_before_resolve_witness :
    (fun _ : Nat => true) (SyncState.polls {}) = true ∧
    processBatches none (fun _ => []) (some (fun _ => true)) {}
        [[{ id := "d1", perm_sync_data := none }],
         [{ id := "d2", perm_sync_data := none }]] =
      ({ ({} : SyncState) with
           polls := SyncState.polls {} + 1,
           trace := SyncState.trace {} ++ [Event.poll true] }, Outcome.aborted) :=
  ⟨rfl, c7_cancel_aborts_before_resolve none (fun _ => []) (fun _ => true) {}
    { id := "d1", perm_sync_data := none } []
    [[{ id := "d2", perm_sync_data := none }]] rfl⟩

/-! ### Claim C8 -/

/-- C8: whenever steps 1–3 produce zero permission entries (an absent
payload, no ids, or a fetch answered by 404/403 with an empty page), the
resolver returns the conservative private record — empty user set, empty
group set, `is_public = false` — and logs exactly the "no permissions
found" warning. -/
theorem c8_private_fallback (companyDomain : Option String)
    (oracle : String → List Perm) (cache : Cache) (doc : SlimDocument)
    (c' : Cache) (fc : Nat)
    (h : resolvePermList oracle cache (permInfoOf doc) = .ok ([], c', fc)) :
    getPermissionsFromSlimDoc companyDomain oracle cache doc =
      .ok { access := { external_user_emails := ∅,
                        external_user_group_ids := ∅,
                        is_public := false },
            warnings := [Warning.noPermissions], cache := c', fetchCount := fc } := by
  simp [getPermissionsFromSlimDoc, h]

/-- C8 witness: a document whose permission fetch is answered by a
404/403 (the oracle yields nothing), exercising the fetch-then-fallback
path. -/
theorem c8_private_fallback_witness :
    resolvePermList (fun _ => []) []
        (permInfoOf { id := "d3",
                      perm_sync_data := some { permission_ids := ["p1"],
                                               doc_id := some "d3" } }) =
      .ok ([], [], 1) ∧
    getPermissionsFromSlimDoc none (fun _ => []) []
        { id := "d3",
          perm_sync_data := some { permission_ids := ["p1"], doc_id := some "d3" } } =
      .ok { access := { external_user_emails := ∅,
                        external_user_group_ids := ∅,
                        is_public := false },
            warnings := [Warning.noPermissions], cache := [], fetchCount := 1 } :=
  ⟨by decide, c8_private_fallback none (fun _ => []) []
    { id := "d3",
      perm_sync_data := some { permission_ids := ["p1"], doc_id := some "d3" } }
    [] 1 (by decide)⟩

/-! ### Claim C9 -/

/-- C9: a descriptor with a non-empty embedded permission list is
classified directly — the resolver equals the classification phase
applied to the embedded entries with a fetch count of zero, so no
network fetch is made. -/
theorem c9_embedded_no_fetch (companyDomain : Option String)
    (oracle : String → List Perm) (cache : Cache) (doc : SlimDocument)
    (h : (permInfoOf doc).permissions ≠ []) :
    getPermissionsFromSlimDoc companyDomain oracle cache doc =
      classifyPhase companyDomain (permInfoOf doc)
        (permInfoOf doc).permissions cache 0 ∧
    rFetchCount (getPermissionsFromSlimDoc companyDomain oracle cache doc) = 0 := by
  have hne : (permInfoOf doc).permissions.isEmpty = false := by
    cases hp : (permInfoOf doc).permissions with
    | nil => exact absurd hp h
    | cons a l => rfl
  have heq : getPermissionsFromSlimDoc companyDomain oracle cache doc =
      classifyPhase companyDomain (permInfoOf doc)
        (permInfoOf doc).permissions cache 0 := by
    simp [getPermissionsFromSlimDoc, resolvePermList, hne]
  exact ⟨heq, heq ▸ rFetchCount_classifyPhase_zero _ _ _ _⟩

/-- C9 witness: a descriptor with one embedded "anyone" permission. -/
theorem c9_embedded_no_fetch_witness :
    (permInfoOf { id := "d1",
                  perm_sync_data := some { permissions := [[("type", "anyone")]] } }).permissions ≠ [] ∧
    (getPermissionsFromSlimDoc none (fun _ => []) []
        { id := "d1", perm_sync_data := some { permissions := [[("type", "anyone")]] } } =
      classifyPhase none
        (permInfoOf { id := "d1",
                      perm_sync_data := some { permissions := [[("type", "anyone")]] } })
        (permInfoOf { id := "d1",
                      perm_sync_data := some { permissions := [[("type", "anyone")]] } }).permissions
        [] 0 ∧
    rFetchCount (getPermissionsFromSlimDoc none (fun _ => []) []
        { id := "d1",
          perm_sync_data := some { permissions := [[("type", "anyone")]] } }) = 0) :=
  ⟨by decide, c9_embedded_no_fetch none (fun _ => []) []
    { id := "d1", perm_sync_data := some { permissions := [[("type", "anyone")]] } }
    (by decide)⟩

/-! ### Claim C1 -/

/-- C1 counterexample: a descriptor carrying a parent-collection id
(`drive_id = "D"`) whose permission list resolves to empty takes the
conservative-fallback early return, which is emitted before the
`drive_id` injection — the output group-identifier set is empty, so the
claim that the drive id appears "including the case where the resolved
permission list is empty" is false on the code. -/
theorem c1_drive_id_fallback_counterexample :
    rOk (getPermissionsFromSlimDoc none (fun _ => []) []
      { id := "d1", perm_sync_data := some { drive_id := some "D" } }) = true ∧
    "D" ∉ (rAccess (getPermissionsFromSlimDoc none (fun _ => []) []
      { id := "d1",
        perm_sync_data := some { drive_id := some "D" } })).external_user_group_ids := by
  decide

/-- C1 (amended): whenever the resolver returns normally and does not
take the empty-list conservative fallback (no "no permissions found"
warning), a parent-collection id carried by the descriptor is in the
output group-identifier set. -/
theorem c1_drive_id_in_groups (companyDomain : Option String)
    (oracle : String → List Perm) (cache : Cache) (doc : SlimDocument)
    (g : String)
    (hg : (permInfoOf doc).drive_id = some g)
    (hok : rOk (getPermissionsFromSlimDoc companyDomain oracle cache doc) = true)
    (hnf : Warning.noPermissions ∉
      rWarnings (getPermissionsFromSlimDoc companyDomain oracle cache doc)) :
    g ∈ (rAccess (getPermissionsFromSlimDoc companyDomain oracle
      cache doc)).external_user_group_ids := by
  cases hres : resolvePermList oracle cache (permInfoOf doc) with
  | error e =>
    simp only [getPermissionsFromSlimDoc, hres, rOk] at hok
    exact absurd hok (by decide)
  | ok res =>
    obtain ⟨pl, c, fc⟩ := res
    cases hpl : pl with
    | nil =>
      subst hpl
      simp only [getPermissionsFromSlimDoc, hres, List.isEmpty_nil, if_true,
        rWarnings] at hnf
      simp at hnf
    | cons p ps =>
      subst hpl
      simp only [getPermissionsFromSlimDoc, hres, List.isEmpty_cons,
        Bool.false_eq_true, if_false] at hok hnf ⊢
      cases hcl : classifyLoop companyDomain {} (p :: ps) with
      | error e =>
        simp only [classifyPhase, hcl, rOk] at hok
        exact absurd hok (by decide)
      | ok st =>
        simp only [classifyPhase, hcl, hg, rAccess]
        exact Finset.mem_union_right _ (Finset.mem_singleton_self g)

/-- C1 witness: a descriptor with one "anyone" permission and a drive
id. -/
theorem c1_drive_id_in_groups_witness :
    (permInfoOf { id := "d1",
                  perm_sync_data := some { permissions := [[("type", "anyone")]],
                                           drive_id := some "D" } }).drive_id = some "D" ∧
    rOk (getPermissionsFromSlimDoc none (fun _ => []) []
      { id := "d1", perm_sync_data := some { permissions := [[("type", "anyone")]],
                                             drive_id := some "D" } }) = true ∧
    Warning.noPermissions ∉ rWarnings (getPermissionsFromSlimDoc none (fun _ => []) []
      { id := "d1", perm_sync_data := some { permissions := [[("type", "anyone")]],
                                             drive_id := some "D" } }) ∧
    "D" ∈ (rAccess (getPermissionsFromSlimDoc none (fun _ => []) []
      { id := "d1", perm_sync_data := some { permissions := [[("type", "anyone")]],
                                             drive_id := some "D" } })).external_user_group_ids :=
  ⟨by decide, by decide, by decide,
   c1_drive_id_in_groups none (fun _ => []) []
     { id := "d1", perm_sync_data := some { permissions := [[("type", "anyone")]],
                                            drive_id := some "D" } }
     "D" (by decide) (by decide) (by decide)⟩

/-! ### Claim C4 -/

/-- C4 counterexample: in a run with a callback present and one
document, the recorded trace is poll, progress, resolve, emit — the
unit of progress is recorded before resolution and before the record is
handed off, so the claim "emit first, then progress, never before
resolution" is false on the code. -/
theorem c4_progress_order_counterexample :
    (gdriveDocSync none (fun _ => []) (some (fun _ => false))
      [[{ id := "d1", perm_sync_data := none }]]).1.trace =
      [Event.poll false, Event.progress, Event.resolve "d1", Event.emit "d1"] := by
  decide

/-- C4 (amended): for every document processed with a callback present
and a negative stop poll, the unit of progress is recorded immediately
after the cancellation check and before the document is resolved and
its record emitted. -/
theorem c4_progress_before_resolve (companyDomain : Option String)
    (oracle : String → List Perm) (cb : Nat → Bool) (st : SyncState)
    (doc : SlimDocument)
    (h : cb st.polls = false) :
    (processDoc companyDomain oracle (some cb) st doc).1.trace =
      st.trace ++ [Event.poll false, Event.progress, Event.resolve doc.id] ++
        (if rOk (getPermissionsFromSlimDoc companyDomain oracle st.cache doc) = true
         then [Event.emit doc.id] else []) := by
  cases hr : getPermissionsFromSlimDoc companyDomain oracle st.cache doc with
  | error e => simp [processDoc, h, hr, rOk]
  | ok r => simp [processDoc, h, hr, rOk]

/-- C4 witness: the per-document block of a concrete non-cancelled
document. -/
theorem c4_progress_before_resolve_witness :
    (fun _ : Nat => false) (SyncState.polls {}) = false ∧
    (processDoc none (fun _ => []) (some (fun _ => false)) {}
        { id := "d1", perm_sync_data := none }).1.trace =
      SyncState.trace {} ++ [Event.poll false, Event.progress, Event.resolve "d1"] ++
        (if rOk (getPermissionsFromSlimDoc none (fun _ => []) (SyncState.cache {})
            { id := "d1", perm_sync_data := none }) = true
         then [Event.emit "d1"] else []) :=
  ⟨rfl, c4_progress_before_resolve none (fun _ => []) (fun _ => false) {}
    { id := "d1", perm_sync_data := none } rfl⟩

/-! ### Claim C6 -/

/-- C6 counterexample: with no domain configured for the connection, a
kind=domain entry is dropped silently — the loop state is unchanged and
no diagnostic is recorded — so the claim that such an entry "is ignored
with a diagnostic" is false on the code (the source logs only in the
configured-but-mismatched branch). -/
theorem c6_unconfigured_domain_counterexample :
    classifyOne none {} [("type", "domain"), ("domain", "x.com")] =
      Except.ok ({} : LoopState) := by
  decide

/-- C6 (amended): a kind=domain entry contributes `public = true` iff a
domain is configured and the entry's domain equals it exactly; a
configured-but-mismatched entry is ignored with a mismatch diagnostic;
with no domain configured the entry is ignored silently.  In every case
the user and group sets are untouched. -/
theorem c6_domain_entry_classification (companyDomain : Option String)
    (st : LoopState) (p : Perm)
    (ht : listGet p "type" = some "domain") :
    classifyOne companyDomain st p = Except.ok
      (if strTruthy companyDomain = true then
        (if listGet p "domain" = companyDomain then { st with public := true }
         else { st with mismatchWarnings :=
                  st.mismatchWarnings ++ [Warning.domainMismatch] })
       else st) := by
  have hne : p.isEmpty = false := by
    cases p with
    | nil => simp [listGet] at ht
    | cons a l => rfl
  by_cases hdm : listGet p "domain" = companyDomain <;>
    cases hcd : strTruthy companyDomain <;>
      simp [classifyOne, hne, ht, hdm, hcd]

/-- C6 witness: a configured domain with an exactly matching entry. -/
theorem c6_domain_entry_classification_witness :
    listGet [("type", "domain"), ("domain", "x.com")] "type" = some "domain" ∧
    classifyOne (some "x.com") {} [("type", "domain"), ("domain", "x.com")] =
      Except.ok
        (if strTruthy (some "x.com") = true then
          (if listGet [("type", "domain"), ("domain", "x.com")] "domain" =
              some "x.com" then { ({} : LoopState) with public := true }
           else { ({} : LoopState) with mismatchWarnings :=
                    LoopState.mismatchWarnings {} ++ [Warning.domainMismatch] })
         else {}) :=
  ⟨by decide, c6_domain_entry_classification (some "x.com") {}
    [("type", "domain"), ("domain", "x.com")] (by decide)⟩

/-! ### Claim C3 -/

/-- C3: a descriptor carrying only permission-identifier references,
all of which are cache-resident, is resolved with zero network fetches,
and the result is exactly the classification of the cached entries
(assembled in reference order), with the cache unchanged. -/
theorem c3_all_cached_zero_fetch (companyDomain : Option String)
    (oracle : String → List Perm) (cache : Cache) (doc : SlimDocument)
    (h1 : (permInfoOf doc).permissions = [])
    (h2 : (permInfoOf doc).permission_ids ≠ [])
    (h3 : strTruthy (permInfoOf doc).doc_id = true)
    (h4 : ∀ pid ∈ (permInfoOf doc).permission_ids,
      (listGet cache pid).isSome = true) :
    getPermissionsFromSlimDoc companyDomain oracle cache doc =
      classifyPhase companyDomain (permInfoOf doc)
        ((permInfoOf doc).permission_ids.filterMap (listGet cache)) cache 0 ∧
    rFetchCount (getPermissionsFromSlimDoc companyDomain oracle cache doc) = 0 := by
  cases hdoc : (permInfoOf doc).doc_id with
  | none => rw [hdoc] at h3; simp [strTruthy] at h3
  | some d =>
    have hd : ¬d = "" := by
      intro hd0
      rw [hdoc, hd0] at h3
      simp [strTruthy] at h3
    have hlen : ((permInfoOf doc).permission_ids.filterMap (listGet cache)).length =
        (permInfoOf doc).permission_ids.length :=
      length_filterMap_of_all_isSome _ _ h4
    have hfetch : fetchPermissionsForPermissionIds oracle cache
        (permInfoOf doc).permission_ids (permInfoOf doc) =
        .ok ((permInfoOf doc).permission_ids.filterMap (listGet cache), cache, 0) := by
      simp [fetchPermissionsForPermissionIds, hdoc, hd, hlen]
    have hids : (permInfoOf doc).permission_ids.isEmpty = false := by
      cases hi : (permInfoOf doc).permission_ids with
      | nil => exact absurd hi h2
      | cons a l => rfl
    have hne : ((permInfoOf doc).permission_ids.filterMap
        (listGet cache)).isEmpty = false := by
      cases hm : (permInfoOf doc).permission_ids.filterMap (listGet cache) with
      | nil =>
        exfalso
        rw [hm] at hlen
        have h0 : (permInfoOf doc).permission_ids.length = 0 := by
          simpa using hlen.symm
        exact h2 (List.length_eq_zero.mp h0)
      | cons a l => rfl
    have hres : resolvePermList oracle cache (permInfoOf doc) =
        .ok ((permInfoOf doc).permission_ids.filterMap (listGet cache), cache, 0) := by
      simp [resolvePermList, h1, hids, hfetch]
    have heq : getPermissionsFromSlimDoc companyDomain oracle cache doc =
        classifyPhase companyDomain (permInfoOf doc)
          ((permInfoOf doc).permission_ids.filterMap (listGet cache)) cache 0 := by
      simp [getPermissionsFromSlimDoc, hres, hne]
    exact ⟨heq, heq ▸ rFetchCount_classifyPhase_zero _ _ _ _⟩

/-- C3 witness: one cached reference, resolved without touching the
oracle. -/
theorem c3_all_cached_zero_fetch_witness :
    (permInfoOf { id := "d2",
                  perm_sync_data := some { permission_ids := ["p1"],
                                           doc_id := some "d2" } }).permissions = [] ∧
    (permInfoOf { id := "d2",
                  perm_sync_data := some { permission_ids := ["p1"],
                                           doc_id := some "d2" } }).permission_ids ≠ [] ∧
    strTruthy (permInfoOf { id := "d2",
                            perm_sync_data := some { permission_ids := ["p1"],
                                                     doc_id := some "d2" } }).doc_id = true ∧
    (∀ pid ∈ (permInfoOf { id := "d2",
                           perm_sync_data := some { permission_ids := ["p1"],
                                                    doc_id := some "d2" } }).permission_ids,
      (listGet [("p1", [("type", "user"), ("emailAddress", "u@x.com")])] pid).isSome = true) ∧
    (getPermissionsFromSlimDoc none (fun _ => [])
        [("p1", [("type", "user"), ("emailAddress", "u@x.com")])]
        { id := "d2", perm_sync_data := some { permission_ids := ["p1"],
                                               doc_id := some "d2" } } =
      classifyPhase none
        (permInfoOf { id := "d2",
                      perm_sync_data := some { permission_ids := ["p1"],
                                               doc_id := some "d2" } })
        ((permInfoOf { id := "d2",
                       perm_sync_data := some { permission_ids := ["p1"],
                                                doc_id := some "d2" } }).permission_ids.filterMap
          (listGet [("p1", [("type", "user"), ("emailAddress", "u@x.com")])]))
        [("p1", [("type", "user"), ("emailAddress", "u@x.com")])] 0 ∧
    rFetchCount (getPermissionsFromSlimDoc none (fun _ => [])
        [("p1", [("type", "user"), ("emailAddress", "u@x.com")])]
        { id := "d2", perm_sync_data := some { permission_ids := ["p1"],
                                               doc_id := some "d2" } }) = 0) :=
  ⟨by decide, by decide, by decide, by decide,
   c3_all_cached_zero_fetch none (fun _ => [])
     [("p1", [("type", "user"), ("emailAddress", "u@x.com")])]
     { id := "d2", perm_sync_data := some { permission_ids := ["p1"],
                                            doc_id := some "d2" } }
     (by decide) (by decide) (by decide) (by decide)⟩

/-! ### Claim C5 -/

theorem storeFetched_isOk_aux :
    ∀ (l : List Perm) (c : Cache),
      (∀ p ∈ l, (listGet p "id").isSome = true) →
      ∃ c', storeFetched c l = .ok c' := by
  intro l
  induction l with
  | nil => intro c _; exact ⟨c, rfl⟩
  | cons p rest ih =>
    intro c h
    obtain ⟨i, hi⟩ := Option.isSome_iff_exists.mp (h p (List.mem_cons_self p rest))
    obtain ⟨c', hc'⟩ :=
      ih (cacheInsert c i p) (fun q hq => h q (List.mem_cons_of_mem p hq))
    exact ⟨c', by simp [storeFetched, hi, hc']⟩

theorem storeFetched_lookup_preserved :
    ∀ (l : List Perm) (c c' : Cache) (i : String),
      storeFetched c l = .ok c' →
      (∀ q ∈ l, listGet q "id" ≠ some i) →
      listGet c' i = listGet c i := by
  intro l
  induction l with
  | nil =>
    intro c c' i h _
    simp only [storeFetched] at h
    cases h
    rfl
  | cons p rest ih =>
    intro c c' i h hq
    cases hid : listGet p "id" with
    | none =>
      simp only [storeFetched, hid] at h
      exact Except.noConfusion h
    | some j =>
      simp only [storeFetched, hid] at h
      have hji : ¬j = i := fun hji => hq p (List.mem_cons_self p rest) (hji ▸ hid)
      have hpres :=
        ih (cacheInsert c j p) c' i h (fun q hqq => hq q (List.mem_cons_of_mem p hqq))
      rw [hpres]
      simp [cacheInsert, listGet, hji]

theorem storeFetched_lookup :
    ∀ (l : List Perm) (c c' : Cache) (p : Perm) (i : String),
      storeFetched c l = .ok c' →
      (l.filterMap (fun q => listGet q "id")).Nodup →
      p ∈ l → listGet p "id" = some i →
      listGet c' i = some p := by
  intro l
  induction l with
  | nil => intro c c' p i _ _ hp _; cases hp
  | cons q rest ih =>
    intro c c' p i h hnd hp hid
    cases hqid : listGet q "id" with
    | none =>
      simp only [storeFetched, hqid] at h
      exact Except.noConfusion h
    | some j =>
      simp only [storeFetched, hqid] at h
      rw [List.filterMap_cons, hqid] at hnd
      have hnotin : j ∉ rest.filterMap (fun q => listGet q "id") :=
        (List.nodup_cons.mp hnd).1
      have hndrest := (List.nodup_cons.mp hnd).2
      rcases List.mem_cons.mp hp with hpq | hprest
      · subst hpq
        have hij : j = i := by
          rw [hqid] at hid
          exact Option.some.inj hid
        subst hij
        have hrest : ∀ q' ∈ rest, listGet q' "id" ≠ some j := by
          intro q' hq' hcon
          exact hnotin (List.mem_filterMap.mpr ⟨q', hq', hcon⟩)
        rw [storeFetched_lookup_preserved rest (cacheInsert c j p) c' j h hrest]
        simp [cacheInsert, listGet]
      · exact ih (cacheInsert c j q) c' p i h hndrest hprest hid

/-- C5: for a descriptor with a truthy document id and at least one
referenced identifier missing from the cache, exactly one fetch is
issued, its complete result is returned (replacing the partial cache
hits), and the cache afterwards maps the identifier of every fetched
entry to that entry, overwriting any prior value. -/
theorem c5_uncached_single_fetch (oracle : String → List Perm) (cache : Cache)
    (ids : List String) (info : PermSyncData) (d : String)
    (hd : info.doc_id = some d) (hd' : d ≠ "")
    (hmiss : ∃ pid ∈ ids, listGet cache pid = none)
    (hids : ∀ p ∈ oracle d, (listGet p "id").isSome = true)
    (hnd : ((oracle d).filterMap (fun q => listGet q "id")).Nodup) :
    fOk (fetchPermissionsForPermissionIds oracle cache ids info) = true ∧
    fPerms (fetchPermissionsForPermissionIds oracle cache ids info) = oracle d ∧
    fCount (fetchPermissionsForPermissionIds oracle cache ids info) = 1 ∧
    ∀ p ∈ oracle d, ∀ i, listGet p "id" = some i →
      listGet (fCache (fetchPermissionsForPermissionIds oracle cache ids info)) i =
        some p := by
  have hlen : (ids.filterMap (listGet cache)).length ≠ ids.length :=
    length_filterMap_ne_of_none _ _ hmiss
  obtain ⟨c', hc'⟩ := storeFetched_isOk_aux (oracle d) cache hids
  have hfetch : fetchPermissionsForPermissionIds oracle cache ids info =
      .ok (oracle d, c', 1) := by
    simp [fetchPermissionsForPermissionIds, hd, hd', hlen, hc']
  refine ⟨by simp [hfetch, fOk], by simp [hfetch, fPerms],
    by simp [hfetch, fCount], ?_⟩
  intro p hp i hi
  rw [hfetch]
  simpa [fCache] using storeFetched_lookup (oracle d) cache c' p i hc' hnd hp hi

/-- C5 witness: a cache miss answered by a one-entry fetch, whose
entry is then cached. -/
theorem c5_uncached_single_fetch_witness :
    PermSyncData.doc_id { permission_ids := ["p1"], doc_id := some "d2" } =
      some "d2" ∧
    "d2" ≠ "" ∧
    (∃ pid ∈ ["p1"], listGet ([] : Cache) pid = none) ∧
    (∀ p ∈ (fun _ : String =>
        [[("id", "p1"), ("type", "user"), ("emailAddress", "u@x.com")]]) "d2",
      (listGet p "id").isSome = true) ∧
    (((fun _ : String =>
        [[("id", "p1"), ("type", "user"), ("emailAddress", "u@x.com")]]) "d2").filterMap
      (fun q => listGet q "id")).Nodup ∧
    (fOk (fetchPermissionsForPermissionIds
        (fun _ => [[("id", "p1"), ("type", "user"), ("emailAddress", "u@x.com")]])
        [] ["p1"] { permission_ids := ["p1"], doc_id := some "d2" }) = true ∧
    fPerms (fetchPermissionsForPermissionIds
        (fun _ => [[("id", "p1"), ("type", "user"), ("emailAddress", "u@x.com")]])
        [] ["p1"] { permission_ids := ["p1"], doc_id := some "d2" }) =
      (fun _ : String =>
        [[("id", "p1"), ("type", "user"), ("emailAddress", "u@x.com")]]) "d2" ∧
    fCount (fetchPermissionsForPermissionIds
        (fun _ => [[("id", "p1"), ("type", "user"), ("emailAddress", "u@x.com")]])
        [] ["p1"] { permission_ids := ["p1"], doc_id := some "d2" }) = 1 ∧
    ∀ p ∈ (fun _ : String =>
        [[("id", "p1"), ("type", "user"), ("emailAddress", "u@x.com")]]) "d2",
      ∀ i, listGet p "id" = some i →
        listGet (fCache (fetchPermissionsForPermissionIds
          (fun _ => [[("id", "p1"), ("type", "user"), ("emailAddress", "u@x.com")]])
          [] ["p1"] { permission_ids := ["p1"], doc_id := some "d2" })) i = some p) :=
  ⟨by decide, by decide, by decide, by decide, by decide,
   c5_uncached_single_fetch
     (fun _ => [[("id", "p1"), ("type", "user"), ("emailAddress", "u@x.com")]])
     [] ["p1"] { permission_ids := ["p1"], doc_id := some "d2" } "d2"
     (by decide) (by decide) (by decide) (by decide) (by decide)⟩

/-! ### Claim C2 -/

/-- Well-formedness of one permission object: falsy entries are always
tolerated; a truthy entry needs a "type" field, and the user/group kinds
additionally need an "emailAddress" field (the fields the source reads
with a bare subscript). -/
def permWF (p : Perm) : Bool :=
  p.isEmpty ||
    (match listGet p "type" with
     | none => false
     | some t =>
       if t = "user" then (listGet p "emailAddress").isSome
       else if t = "group" then (listGet p "emailAddress").isSome
       else true)

/-- C2 counterexample: a non-empty permission dict without a "type"
field makes the resolver raise a `KeyError` (the `Except.error` branch),
so the claim that the resolver "returns an access record and never
raises an error" for entries "missing the 'type' ... field" is false on
the code. -/
theorem c2_keyerror_counterexample :
    rOk (getPermissionsFromSlimDoc none (fun _ => []) []
      { id := "d1", perm_sync_data := some { permissions := [[("foo", "bar")]] } }) =
      false := by
  decide

theorem classifyOne_ok_of_WF (companyDomain : Option String) (st : LoopState)
    (p : Perm) (h : permWF p = true) :
    ∃ st', classifyOne companyDomain st p = .ok st' := by
  cases hp : p.isEmpty with
  | true => simp [classifyOne, hp]
  | false =>
    cases hty : listGet p "type" with
    | none => simp [permWF, hp, hty] at h
    | some t =>
      simp only [permWF, hp, hty, Bool.false_or] at h
      by_cases hu : t = "user"
      · rw [if_pos hu] at h
        obtain ⟨e, he⟩ := Option.isSome_iff_exists.mp h
        simp [classifyOne, hp, hty, hu, he]
      · by_cases hg : t = "group"
        · rw [if_neg hu, if_pos hg] at h
          obtain ⟨e, he⟩ := Option.isSome_iff_exists.mp h
          simp [classifyOne, hp, hty, hu, hg, he]
        · by_cases hdo : t = "domain"
          · cases hcd : strTruthy companyDomain with
            | false => simp [classifyOne, hp, hty, hu, hg, hdo, hcd]
            | true =>
              by_cases hdm : listGet p "domain" = companyDomain
              · simp [classifyOne, hp, hty, hu, hg, hdo, hcd, hdm]
              · simp [classifyOne, hp, hty, hu, hg, hdo, hcd, hdm]
          · by_cases ha : t = "anyone"
            · simp [classifyOne, hp, hty, hu, hg, hdo, ha]
            · simp [classifyOne, hp, hty, hu, hg, hdo, ha]

theorem classifyLoop_ok_of_WF (companyDomain : Option String) :
    ∀ (pl : List Perm) (st : LoopState),
      (∀ p ∈ pl, permWF p = true) →
      ∃ st', classifyLoop companyDomain st pl = .ok st' := by
  intro pl
  induction pl with
  | nil => intro st _; exact ⟨st, rfl⟩
  | cons p rest ih =>
    intro st h
    obtain ⟨st1, hst1⟩ :=
      classifyOne_ok_of_WF companyDomain st p (h p (List.mem_cons_self p rest))
    obtain ⟨st2, hst2⟩ := ih st1 (fun q hq => h q (List.mem_cons_of_mem p hq))
    exact ⟨st2, by simp [classifyLoop, hst1, hst2]⟩

theorem resolvePermList_wf (oracle : String → List Perm) (cache : Cache)
    (info : PermSyncData)
    (hc : ∀ kv ∈ cache, permWF kv.2 = true)
    (hperm : ∀ p ∈ info.permissions, permWF p = true)
    (ho : ∀ d, ∀ p ∈ oracle d, permWF p = true ∧ (listGet p "id").isSome = true) :
    ∃ pl c fc, resolvePermList oracle cache info = .ok (pl, c, fc) ∧
      ∀ p ∈ pl, permWF p = true := by
  cases hpl : info.permissions with
  | cons p ps =>
    refine ⟨p :: ps, cache, 0, by simp [resolvePermList, hpl], ?_⟩
    intro q hq
    exact hperm q (by rw [hpl]; exact hq)
  | nil =>
    cases hids : info.permission_ids with
    | nil =>
      exact ⟨[], cache, 0, by simp [resolvePermList, hpl, hids], by simp⟩
    | cons i is =>
      cases hdoc : info.doc_id with
      | none =>
        refine ⟨[], cache, 0, ?_, by simp⟩
        simp [resolvePermList, hpl, hids, fetchPermissionsForPermissionIds, hdoc]
      | some d =>
        by_cases hd : d = ""
        · refine ⟨[], cache, 0, ?_, by simp⟩
          simp [resolvePermList, hpl, hids, fetchPermissionsForPermissionIds,
            hdoc, hd]
        · by_cases hlen :
            ((i :: is).filterMap (listGet cache)).length = (i :: is).length
          · refine ⟨(i :: is).filterMap (listGet cache), cache, 0, ?_, ?_⟩
            · simp [resolvePermList, hpl, hids, fetchPermissionsForPermissionIds,
                hdoc, hd, hlen]
            · intro q hq
              obtain ⟨pid, _, hpid⟩ := List.mem_filterMap.mp hq
              exact hc (pid, q) (listGet_mem cache pid q hpid)
          · obtain ⟨c', hc'⟩ :=
              storeFetched_isOk_aux (oracle d) cache (fun p hp => (ho d p hp).2)
            refine ⟨oracle d, c', 1, ?_, fun q hq => (ho d q hq).1⟩
            have hlen' : ¬((i :: is).filterMap (listGet cache)).length =
                is.length + 1 := by
              simpa using hlen
            simp [resolvePermList, hpl, hids, fetchPermissionsForPermissionIds,
              hdoc, hd, hlen', hc']

/-- C2 (amended): the resolver returns an access record without raising
for every descriptor whose truthy permission entries — embedded, cached,
or fetched — carry a "type" field, an "emailAddress" field for the
user/group kinds, and (for fetched entries) an "id" field; a truthy
entry missing one of these raises a `KeyError` that escapes the
resolver. -/
theorem c2_no_raise_when_wellformed (companyDomain : Option String)
    (oracle : String → List Perm) (cache : Cache) (doc : SlimDocument)
    (h1 : ∀ p ∈ (permInfoOf doc).permissions, permWF p = true)
    (h2 : ∀ kv ∈ cache, permWF kv.2 = true)
    (h3 : ∀ d, ∀ p ∈ oracle d, permWF p = true ∧ (listGet p "id").isSome = true) :
    rOk (getPermissionsFromSlimDoc companyDomain oracle cache doc) = true := by
  obtain ⟨pl, c, fc, hres, hwf⟩ :=
    resolvePermList_wf oracle cache (permInfoOf doc) h2 h1 h3
  cases hpl : pl with
  | nil =>
    subst hpl
    simp [getPermissionsFromSlimDoc, hres, rOk]
  | cons p ps =>
    subst hpl
    obtain ⟨st', hst'⟩ := classifyLoop_ok_of_WF companyDomain (p :: ps) {} hwf
    simp [getPermissionsFromSlimDoc, hres, classifyPhase, hst', rOk]

/-- C2 witness: a descriptor mixing a falsy entry with well-formed
entries, a well-formed cache, and a well-formed fetch oracle. -/
theorem c2_no_raise_when_wellformed_witness :
    (∀ p ∈ (permInfoOf { id := "d1",
                         perm_sync_data := some { permissions :=
                           [[("type", "user"), ("emailAddress", "u@x.com")],
                            []] } }).permissions,
      permWF p = true) ∧
    (∀ kv ∈ [("p0", [("type", "anyone")])], permWF kv.2 = true) ∧
    (∀ d, ∀ p ∈ (fun _ : String =>
        [[("id", "q1"), ("type", "group"), ("emailAddress", "g@x.com")]]) d,
      permWF p = true ∧ (listGet p "id").isSome = true) ∧
    rOk (getPermissionsFromSlimDoc none
      (fun _ => [[("id", "q1"), ("type", "group"), ("emailAddress", "g@x.com")]])
      [("p0", [("type", "anyone")])]
      { id := "d1",
        perm_sync_data := some { permissions :=
          [[("type", "user"), ("emailAddress", "u@x.com")], []] } }) = true :=
  ⟨by decide, by decide, fun d =>
     (by decide :
       ∀ p ∈ [[("id", "q1"), ("type", "group"), ("emailAddress", "g@x.com")]],
         permWF p = true ∧ (listGet p "id").isSome = true),
   c2_no_raise_when_wellformed none
     (fun _ => [[("id", "q1"), ("type", "group"), ("emailAddress", "g@x.com")]])
     [("p0", [("type", "anyone")])]
     { id := "d1",
       perm_sync_data := some { permissions :=
         [[("type", "user"), ("emailAddress", "u@x.com")], []] } }
     (by decide) (by decide) (fun d =>
     (by decide :
       ∀ p ∈ [[("id", "q1"), ("type", "group"), ("emailAddress", "g@x.com")]],
         permWF p = true ∧ (listGet p "id").isSome = true))⟩

/-! ### Claim C10 -/

/-- C10 counterexample: with no callback, a truthy permission entry
missing "type" makes the resolver raise, the run dies with an error, and
the second document never gets a record — so the claim that the run
"processes and emits a record for every document in the stream" is false
on the code as an unconditional statement. -/
theorem c10_error_counterexample :
    (gdriveDocSync none (fun _ => []) none
      [[{ id := "d1", perm_sync_data := some { permissions := [[("x", "y")]] } },
        { id := "d2", perm_sync_data := none }]]).1.emitted = [] ∧
    (gdriveDocSync none (fun _ => []) none
      [[{ id := "d1", perm_sync_data := some { permissions := [[("x", "y")]] } },
        { id := "d2", perm_sync_data := none }]]).2 =
      Outcome.errored "KeyError: type" := by
  decide

theorem processDocs_none_outcome (companyDomain : Option String)
    (oracle : String → List Perm) :
    ∀ (docs : List SlimDocument) (st : SyncState),
      (processDocs companyDomain oracle none st docs).2 = none ∨
      ∃ e, (processDocs companyDomain oracle none st docs).2 =
        some (Outcome.errored e) := by
  intro docs
  induction docs with
  | nil => intro st; left; rfl
  | cons doc rest ih =>
    intro st
    cases hr : getPermissionsFromSlimDoc companyDomain oracle st.cache doc with
    | error e =>
      right
      exact ⟨e, by simp [processDocs, processDoc, hr]⟩
    | ok r =>
      have heq : processDocs companyDomain oracle none st (doc :: rest) =
          processDocs companyDomain oracle none
            { st with cache := r.cache,
                      trace := st.trace ++ [Event.resolve doc.id, Event.emit doc.id],
                      emitted := st.emitted ++ [(doc.id, r.access)] } rest := by
        simp [processDocs, processDoc, hr]
      rw [heq]
      exact ih _

theorem processDocs_none_signalFree (companyDomain : Option String)
    (oracle : String → List Perm) :
    ∀ (docs : List SlimDocument) (st : SyncState),
      st.trace.all nonSignalEvent = true →
      ((processDocs companyDomain oracle none st docs).1.trace.all nonSignalEvent =
        true ∧
       (processDocs companyDomain oracle none st docs).2 ≠ some Outcome.aborted) := by
  intro docs
  induction docs with
  | nil => intro st h; exact ⟨h, by simp [processDocs]⟩
  | cons doc rest ih =>
    intro st h
    cases hr : getPermissionsFromSlimDoc companyDomain oracle st.cache doc with
    | error e =>
      constructor
      · simp [processDocs, processDoc, hr, List.all_append, h, nonSignalEvent]
      · simp [processDocs, processDoc, hr]
    | ok r =>
      have heq : processDocs companyDomain oracle none st (doc :: rest) =
          processDocs companyDomain oracle none
            { st with cache := r.cache,
                      trace := st.trace ++ [Event.resolve doc.id, Event.emit doc.id],
                      emitted := st.emitted ++ [(doc.id, r.access)] } rest := by
        simp [processDocs, processDoc, hr]
      rw [heq]
      exact ih _ (by simp [List.all_append, h, nonSignalEvent])

theorem processBatches_none_signalFree (companyDomain : Option String)
    (oracle : String → List Perm) :
    ∀ (batches : List (List SlimDocument)) (st : SyncState),
      st.trace.all nonSignalEvent = true →
      ((processBatches companyDomain oracle none st batches).1.trace.all
          nonSignalEvent = true ∧
       (processBatches companyDomain oracle none st batches).2 ≠ Outcome.aborted) := by
  intro batches
  induction batches with
  | nil => intro st h; exact ⟨h, by simp [processBatches]⟩
  | cons b bs ih =>
    intro st h
    cases hd : processDocs companyDomain oracle none st b with
    | mk st1 o? =>
      have hh := processDocs_none_signalFree companyDomain oracle b st h
      rw [hd] at hh
      cases o? with
      | none =>
        have heq : processBatches companyDomain oracle none st (b :: bs) =
            processBatches companyDomain oracle none st1 bs := by
          simp [processBatches, hd]
        rw [heq]
        exact ih st1 hh.1
      | some o =>
        have heq : processBatches companyDomain oracle none st (b :: bs) =
            (st1, o) := by
          simp [processBatches, hd]
        rw [heq]
        refine ⟨hh.1, ?_⟩
        intro hab
        have ho : o = Outcome.aborted := hab
        exact hh.2 (by simp [ho])

theorem processDocs_none_emits (companyDomain : Option String)
    (oracle : String → List Perm) :
    ∀ (docs : List SlimDocument) (st st' : SyncState),
      processDocs companyDomain oracle none st docs = (st', none) →
      st'.emitted.map Prod.fst =
        st.emitted.map Prod.fst ++ docs.map SlimDocument.id := by
  intro docs
  induction docs with
  | nil =>
    intro st st' h
    simp [processDocs] at h
    rw [← h]
    simp
  | cons doc rest ih =>
    intro st st' h
    cases hr : getPermissionsFromSlimDoc companyDomain oracle st.cache doc with
    | error e =>
      simp [processDocs, processDoc, hr] at h
    | ok r =>
      have heq : processDocs companyDomain oracle none st (doc :: rest) =
          processDocs companyDomain oracle none
            { st with cache := r.cache,
                      trace := st.trace ++ [Event.resolve doc.id, Event.emit doc.id],
                      emitted := st.emitted ++ [(doc.id, r.access)] } rest := by
        simp [processDocs, processDoc, hr]
      rw [heq] at h
      have hih := ih _ st' h
      simpa [List.append_assoc] using hih

theorem processBatches_none_done_emits (companyDomain : Option String)
    (oracle : String → List Perm) :
    ∀ (batches : List (List SlimDocument)) (st st' : SyncState),
      processBatches companyDomain oracle none st batches = (st', Outcome.done) →
      st'.emitted.map Prod.fst =
        st.emitted.map Prod.fst ++ batches.flatten.map SlimDocument.id := by
  intro batches
  induction batches with
  | nil =>
    intro st st' h
    simp [processBatches] at h
    rw [← h]
    simp
  | cons b bs ih =>
    intro st st' h
    cases hd : processDocs companyDomain oracle none st b with
    | mk st1 o? =>
      cases o? with
      | none =>
        have heq : processBatches companyDomain oracle none st (b :: bs) =
            processBatches companyDomain oracle none st1 bs := by
          simp [processBatches, hd]
        rw [heq] at h
        have h1 := processDocs_none_emits companyDomain oracle b st st1 hd
        have h2 := ih st1 st' h
        rw [h2, h1]
        simp [List.flatten_cons, List.append_assoc]
      | some o =>
        rcases processDocs_none_outcome companyDomain oracle b st with ho | ⟨e, ho⟩
        · rw [hd] at ho
          exact absurd ho (by simp)
        · rw [hd] at ho
          have hoe : o = Outcome.errored e := by
            simpa using ho
          have heq : processBatches companyDomain oracle none st (b :: bs) =
              (st1, o) := by
            simp [processBatches, hd]
          rw [heq] at h
          rw [hoe] at h
          simp at h

/-- C10 (amended): with no callback supplied, the cancellation signal is
never polled and no progress is ever recorded (the trace holds only
resolve and emit events), the run can never end in the aborted outcome,
and whenever it runs to completion it emits one record per document of
the stream, in order; a permission entry that raises a `KeyError` is
the only way the run ends early. -/
theorem c10_no_callback_no_signal (companyDomain : Option String)
    (oracle : String → List Perm) (batches : List (List SlimDocument)) :
    (gdriveDocSync companyDomain oracle none batches).1.trace.all nonSignalEvent =
      true ∧
    (gdriveDocSync companyDomain oracle none batches).2 ≠ Outcome.aborted ∧
    ((gdriveDocSync companyDomain oracle none batches).2 = Outcome.done →
      (gdriveDocSync companyDomain oracle none batches).1.emitted.map Prod.fst =
        batches.flatten.map SlimDocument.id) := by
  have hsf := processBatches_none_signalFree companyDomain oracle batches {} rfl
  refine ⟨hsf.1, hsf.2, ?_⟩
  intro hdone
  cases hrun : processBatches companyDomain oracle none {} batches with
  | mk st' o =>
    have ho : o = Outcome.done := by
      have : (gdriveDocSync companyDomain oracle none batches).2 = o := by
        rw [gdriveDocSync, hrun]
      rw [← this]
      exact hdone
    subst ho
    have hem := processBatches_none_done_emits companyDomain oracle batches {} st' hrun
    have hfst : (gdriveDocSync companyDomain oracle none batches).1 = st' := by
      rw [gdriveDocSync, hrun]
    rw [hfst, hem]
    simp

/-- C10 witness: a clean two-document run with no callback completes,
emits both records in order, and its trace has no poll or progress
events. -/
theorem c10_no_callback_no_signal_witness :
    (gdriveDocSync none (fun _ => []) none
      [[{ id := "d1", perm_sync_data := none }],
       [{ id := "d2", perm_sync_data := none }]]).2 = Outcome.done ∧
    (gdriveDocSync none (fun _ => []) none
      [[{ id := "d1", perm_sync_data := none }],
       [{ id := "d2", perm_sync_data := none }]]).1.emitted.map Prod.fst =
      ([[{ id := "d1", perm_sync_data := none }],
        [{ id := "d2", perm_sync_data := none }]] :
          List (List SlimDocument)).flatten.map SlimDocument.id :=
  ⟨by decide,
   (c10_no_callback_no_signal none (fun _ => [])
     [[{ id := "d1", perm_sync_data := none }],
      [{ id := "d2", perm_sync_data := none }]]).2.2 (by decide)⟩

end GDriveSync
